import Mathlib

/-!
# Verification of the liblsl discovery/transport core

Shallow embedding of the resolver (`src/resolver_impl.h`, `src/resolver_impl.cpp`)
and the TCP client-session negotiation (`src/inireader.h`, second part) of the
repository, together with proofs of the specified properties.

Wall-clock times (C++ `double` values produced by `lsl_clock()`) are modelled as
rationals: every claim below only compares clock values, so any linearly ordered
field is a faithful model of the finite doubles involved.
-/

namespace LSL

/-! ## Resolve attempt: the done predicate (`resolve_attempt::is_done`) -/

/-- The C++ cast `(std::size_t)minimum_` of a (signed) `int` to the unsigned
64-bit `std::size_t`: reduction modulo `2^64`. -/
def castSizeT (m : Int) : Nat := (m % (2 : Int) ^ 64).toNat

/-- The state read by `resolve_attempt::is_done`:
the `cancelled_` flag, the clock value `lsl_clock()` returns at this call,
the hard deadline `cancel_after_`, the requested result count `minimum_`
(a C++ `int`), the soft deadline `resolve_atleast_until_` and the current
size of the result map `results_`. -/
structure AttemptState where
  cancelled : Bool
  now : ℚ
  cancelAfter : ℚ
  minimum : Int
  resolveAtleastUntil : ℚ
  resultsSize : Nat
deriving DecidableEq

/-- Embeds `resolve_attempt::is_done` (src/resolver_impl.h, lines 182-191):
```
if (cancelled_) return true;
double now = lsl_clock();
if (now > cancel_after_) return true;
if (minimum_ == 0) return false;
return results_.size() >= (std::size_t)minimum_ && now >= resolve_atleast_until_;
``` -/
def is_done (st : AttemptState) : Bool :=
  if st.cancelled then true
  else if st.cancelAfter < st.now then true
  else if st.minimum = 0 then false
  else decide (castSizeT st.minimum ≤ st.resultsSize) &&
       decide (st.resolveAtleastUntil ≤ st.now)

theorem castSizeT_of_nonneg {m : Int} (h0 : 0 ≤ m) (h1 : m < 2 ^ 31) :
    castSizeT m = m.toNat := by
  unfold castSizeT
  have : m % (2 : Int) ^ 64 = m := Int.emod_eq_of_lt h0 (by omega)
  rw [this]

theorem castSizeT_of_neg {m : Int} (h0 : -2 ^ 31 ≤ m) (h1 : m < 0) :
    2 ^ 32 < castSizeT m := by
  unfold castSizeT
  have h2 : m % (2 : Int) ^ 64 = m + 2 ^ 64 := by
    have := Int.add_mul_emod_self_left (a := m) (b := (2 : Int) ^ 64) (c := 1)
    omega
  omega

/-- C1: `is_done` returns true exactly when the attempt was cancelled, or the
current time exceeds the hard deadline, or `minimum > 0` and the result map
holds at least `minimum` entries and the soft deadline `resolve_atleast_until`
has been reached.  In particular (second conjunct) with `minimum > 0` the
attempt is not done before `resolve_atleast_until = start + minimum_time`
even when enough results were collected, and (third conjunct) with
`minimum = 0` it runs exactly until cancellation or the hard deadline. -/
theorem c1_is_done_characterization (st : AttemptState)
    (hlo : -2 ^ 31 ≤ st.minimum) (hhi : st.minimum < 2 ^ 31)
    (hsz : st.resultsSize < 2 ^ 32) :
    (is_done st = true ↔
      (st.cancelled = true ∨ st.cancelAfter < st.now ∨
        (0 < st.minimum ∧ st.minimum.toNat ≤ st.resultsSize ∧
          st.resolveAtleastUntil ≤ st.now))) ∧
    (0 < st.minimum → st.now < st.resolveAtleastUntil → st.cancelled = false →
      st.now ≤ st.cancelAfter → is_done st = false) ∧
    (st.minimum = 0 →
      is_done st = (st.cancelled || decide (st.cancelAfter < st.now))) := by
  have hchar : is_done st = true ↔
      (st.cancelled = true ∨ st.cancelAfter < st.now ∨
        (0 < st.minimum ∧ st.minimum.toNat ≤ st.resultsSize ∧
          st.resolveAtleastUntil ≤ st.now)) := by
    unfold is_done
    by_cases hc : st.cancelled = true
    · simp [hc]
    · by_cases hd : st.cancelAfter < st.now
      · simp [hc, hd]
      · by_cases hz : st.minimum = 0
        · have h2 : ¬ (0 < st.minimum) := by omega
          simp [hc, hd, hz, h2]
        · rcases lt_or_le st.minimum 0 with hneg | hpos
          · have hbig := castSizeT_of_neg hlo hneg
            have h1 : ¬ (castSizeT st.minimum ≤ st.resultsSize) := by omega
            have h2 : ¬ (0 < st.minimum) := by omega
            simp [hc, hd, hz, h1, h2]
          · have hge : 0 < st.minimum := lt_of_le_of_ne hpos (Ne.symm hz)
            have hcast := castSizeT_of_nonneg hpos hhi
            simp [hc, hd, hz, hcast, hge]
  refine ⟨hchar, ?_, ?_⟩
  · intro hmin hsoft hcanc hhard
    rcases h : is_done st with _ | _
    · rfl
    · exfalso
      rcases hchar.mp h with h1 | h2 | h3
      · rw [hcanc] at h1; exact Bool.false_ne_true h1
      · exact absurd h2 (not_lt.mpr hhard)
      · exact absurd h3.2.2 (not_le.mpr hsoft)
  · intro hz
    unfold is_done
    rw [hz]
    rcases hc : st.cancelled with _ | _
    · simp
    · simp

/-- Concrete instantiation of `c1_is_done_characterization`:
an attempt with `minimum = 3`, four collected results, not cancelled, well
before the hard deadline but before the soft deadline is not yet done. -/
theorem c1_is_done_characterization_witness :
    is_done ⟨false, 5, 10, 3, 7, 4⟩ = false :=
  (c1_is_done_characterization ⟨false, 5, 10, 3, 7, 4⟩
    (by decide) (by decide) (by decide)).2.1
    (by decide) (by norm_num) rfl (by norm_num)

/-! ## The result map (`resolve_attempt::results_`) and the receive handler

`results_` is a `std::map<std::string, std::pair<stream_info_impl, double>>`
keyed by the stream UID.  A `stream_info_impl` (an external collaborator of
the repository) is modelled by the fields the resolver touches: the UID, the
two per-family address strings (empty string = unset, as tested by
`.empty()`), and an opaque `core` field standing for all remaining parsed
content. -/

structure StreamInfo where
  uid : String
  v4address : String
  v6address : String
  core : String
deriving DecidableEq

/-- One accepted reply datagram as seen by
`resolve_attempt::handle_receive_outcome` after the query-id check: the
parsed `stream_info_impl`, whether `remote_endpoint_.address().is_v4()`,
the source address string, and the `lsl_clock()` value at processing time. -/
structure Reply where
  info : StreamInfo
  srcIsV4 : Bool
  srcAddress : String
  now : ℚ
deriving DecidableEq

/-- A result-map entry: the stored `stream_info_impl` and `last_seen`. -/
abbrev Entry := StreamInfo × ℚ

/-- The result map, in iteration order. -/
abbrev ResultMap := List (String × Entry)

/-- Embeds `results_.find(uid)` (first entry with the given key). -/
def rmFind : ResultMap → String → Option Entry
  | [], _ => none
  | (k, e) :: rest, key => if k = key then some e else rmFind rest key

/-- Embeds `results_[uid] = v`: replace the entry if the key is present, else append. -/
def rmSet : ResultMap → String → Entry → ResultMap
  | [], key, v => [(key, v)]
  | (k, e) :: rest, key, v =>
      if k = key then (k, v) :: rest else (k, e) :: rmSet rest key v

def setV4 (i : StreamInfo) (a : String) : StreamInfo := { i with v4address := a }

def setV6 (i : StreamInfo) (a : String) : StreamInfo := { i with v6address := a }

/-- The result-map update performed by
`resolve_attempt::handle_receive_outcome` (src/resolver_impl.h, lines
380-396) for an accepted reply `r`:
```
if (results_.find(uid) == results_.end())
    results_[uid] = std::make_pair(info, lsl_clock()); // insert new result
else
    results_[uid].second = lsl_clock(); // update only the receive time
if (remote_endpoint_.address().is_v4()) {
    if (results_[uid].first.v4address().empty())
        results_[uid].first.v4address(remote_endpoint_.address().to_string());
} else {
    if (results_[uid].first.v6address().empty())
        results_[uid].first.v6address(remote_endpoint_.address().to_string());
}
``` -/
def applyReply (m : ResultMap) (r : Reply) : ResultMap :=
  let uid := r.info.uid
  let m1 := match rmFind m uid with
    | none => rmSet m uid (r.info, r.now)
    | some e => rmSet m uid (e.1, r.now)
  match rmFind m1 uid with
  | none => m1
  | some e =>
    if r.srcIsV4 then
      if e.1.v4address = "" then rmSet m1 uid (setV4 e.1 r.srcAddress, e.2) else m1
    else
      if e.1.v6address = "" then rmSet m1 uid (setV6 e.1 r.srcAddress, e.2) else m1

/-- Processing a sequence of accepted replies, oldest first. -/
def runReplies (m : ResultMap) (rs : List Reply) : ResultMap :=
  rs.foldl applyReply m

/-- The keys of a result map are pairwise distinct. -/
def keysNodup (m : ResultMap) : Prop := (m.map Prod.fst).Nodup

instance (m : ResultMap) : Decidable (keysNodup m) := by
  unfold keysNodup; infer_instance

theorem rmFind_rmSet_self (m : ResultMap) (k : String) (v : Entry) :
    rmFind (rmSet m k v) k = some v := by
  induction m with
  | nil => simp [rmSet, rmFind]
  | cons p rest ih =>
    obtain ⟨k0, e0⟩ := p
    by_cases h : k0 = k
    · simp [rmSet, rmFind, h]
    · simp [rmSet, rmFind, h, ih]

theorem rmFind_rmSet_ne (m : ResultMap) (k k' : String) (v : Entry)
    (h : k' ≠ k) : rmFind (rmSet m k v) k' = rmFind m k' := by
  induction m with
  | nil =>
    have hne : ¬(k = k') := fun hh => h hh.symm
    simp [rmSet, rmFind, hne]
  | cons p rest ih =>
    obtain ⟨k0, e0⟩ := p
    by_cases h0 : k0 = k
    · subst h0
      have hne : ¬(k0 = k') := fun hh => h hh.symm
      simp [rmSet, rmFind, hne]
    · simp only [rmSet, if_neg h0]
      by_cases h1 : k0 = k'
      · simp [rmFind, h1]
      · simp [rmFind, h1, ih]

theorem mem_keys_rmSet (m : ResultMap) (k a : String) (v : Entry) :
    a ∈ (rmSet m k v).map Prod.fst ↔ a ∈ m.map Prod.fst ∨ a = k := by
  induction m with
  | nil => simp [rmSet]
  | cons p rest ih =>
    obtain ⟨k0, e0⟩ := p
    by_cases h : k0 = k
    · subst h
      simp [rmSet]
      tauto
    · simp only [rmSet, if_neg h, List.map_cons, List.mem_cons, ih]
      tauto

theorem keysNodup_rmSet (m : ResultMap) (k : String) (v : Entry)
    (h : keysNodup m) : keysNodup (rmSet m k v) := by
  induction m with
  | nil => simp [rmSet, keysNodup]
  | cons p rest ih =>
    obtain ⟨k0, e0⟩ := p
    unfold keysNodup at h
    simp only [List.map_cons, List.nodup_cons] at h
    by_cases h0 : k0 = k
    · unfold keysNodup
      simp only [rmSet, if_pos h0, List.map_cons, List.nodup_cons]
      exact h
    · unfold keysNodup
      simp only [rmSet, if_neg h0, List.map_cons, List.nodup_cons]
      refine ⟨?_, ih h.2⟩
      rw [mem_keys_rmSet]
      rintro (h1 | h1)
      · exact h.1 h1
      · exact h0 h1

/-- The effect of one accepted reply on the entry for its own UID: the value
stored before the address update (`(info, now)` on insert, `last_seen := now`
otherwise) with the family-matching address filled in only when it was empty. -/
def addrUpdate (e : Entry) (r : Reply) : Entry :=
  if r.srcIsV4 then
    if e.1.v4address = "" then (setV4 e.1 r.srcAddress, e.2) else e
  else
    if e.1.v6address = "" then (setV6 e.1 r.srcAddress, e.2) else e

/-- The entry for `r.info.uid` after processing `r`, as a function of the
entry before. -/
def stepEntry (old : Option Entry) (r : Reply) : Entry :=
  match old with
  | none => addrUpdate (r.info, r.now) r
  | some e => addrUpdate (e.1, r.now) r

theorem applyReply_find_self (m : ResultMap) (r : Reply) :
    rmFind (applyReply m r) r.info.uid = some (stepEntry (rmFind m r.info.uid) r) := by
  unfold applyReply stepEntry
  cases h : rmFind m r.info.uid with
  | none =>
    simp only [h, rmFind_rmSet_self]
    unfold addrUpdate
    by_cases h4 : r.srcIsV4 <;>
      [skip; simp only [if_neg h4]] <;>
      [simp only [if_pos h4]; skip] <;>
      split <;> simp [rmFind_rmSet_self]
  | some e =>
    simp only [h, rmFind_rmSet_self]
    unfold addrUpdate
    by_cases h4 : r.srcIsV4 <;>
      [skip; simp only [if_neg h4]] <;>
      [simp only [if_pos h4]; skip] <;>
      split <;> simp [rmFind_rmSet_self]

theorem applyReply_find_ne (m : ResultMap) (r : Reply) (k : String)
    (h : k ≠ r.info.uid) : rmFind (applyReply m r) k = rmFind m k := by
  unfold applyReply
  cases h0 : rmFind m r.info.uid with
  | none =>
    simp only [h0, rmFind_rmSet_self]
    split <;> split <;>
      simp [rmFind_rmSet_ne _ _ _ _ h]
  | some e =>
    simp only [h0, rmFind_rmSet_self]
    split <;> split <;>
      simp [rmFind_rmSet_ne _ _ _ _ h]

theorem applyReply_keysNodup (m : ResultMap) (r : Reply)
    (h : keysNodup m) : keysNodup (applyReply m r) := by
  unfold applyReply
  cases h0 : rmFind m r.info.uid with
  | none =>
    simp only [h0, rmFind_rmSet_self]
    have h1 := keysNodup_rmSet m r.info.uid (r.info, r.now) h
    split <;> split <;> first | exact keysNodup_rmSet _ _ _ h1 | exact h1
  | some e =>
    simp only [h0, rmFind_rmSet_self]
    have h1 := keysNodup_rmSet m r.info.uid (e.1, r.now) h
    split <;> split <;> first | exact keysNodup_rmSet _ _ _ h1 | exact h1

/-! ### Trace-level characterization of the receive handler -/

/-- The sub-sequence of replies carrying the given UID. -/
def repliesFor (rs : List Reply) (uid : String) : List Reply :=
  rs.filter (fun r => r.info.uid == uid)

/-- The source address of the first reply for `uid` from the given family
(`fam = true` for IPv4). -/
def firstFamilySrc (rs : List Reply) (uid : String) (fam : Bool) : Option String :=
  (rs.find? (fun r => r.info.uid == uid && r.srcIsV4 == fam)).map Reply.srcAddress

/-- The expected result-map entry for `uid` after a reply sequence `rs`
(for replies whose parsed infos carry no addresses): present iff some reply
carried `uid`; `last_seen` is the clock of the latest such reply; the
family addresses are the source addresses of the first reply of each
family; the remaining content comes from the first reply. -/
def traceSpec (rs : List Reply) (uid : String) : Option Entry :=
  match repliesFor rs uid with
  | [] => none
  | first :: rest =>
    some (⟨uid, (firstFamilySrc rs uid true).getD "",
            (firstFamilySrc rs uid false).getD "", first.info.core⟩,
          (rest.getLastD first).now)

/-- Replies whose parsed info carries no address (the address fields are
filled in by the resolver, not by the shortinfo codec) and whose source
address rendering is non-empty. -/
def WellFormedReply (r : Reply) : Prop :=
  r.info.v4address = "" ∧ r.info.v6address = "" ∧ r.srcAddress ≠ ""

instance (r : Reply) : Decidable (WellFormedReply r) := by
  unfold WellFormedReply; infer_instance

theorem repliesFor_append (rs1 rs2 : List Reply) (uid : String) :
    repliesFor (rs1 ++ rs2) uid = repliesFor rs1 uid ++ repliesFor rs2 uid :=
  List.filter_append rs1 rs2

theorem firstFamilySrc_append_ne (rs : List Reply) (r : Reply) (uid : String)
    (fam : Bool) (h : r.info.uid ≠ uid) :
    firstFamilySrc (rs ++ [r]) uid fam = firstFamilySrc rs uid fam := by
  unfold firstFamilySrc
  rw [List.find?_append]
  have hpred : (r.info.uid == uid && r.srcIsV4 == fam) = false := by
    simp [h]
  cases hfind : rs.find? (fun x => x.info.uid == uid && x.srcIsV4 == fam) with
  | none => simp [hfind, List.find?, hpred]
  | some a => simp [hfind]

theorem firstFamilySrc_append_self (rs : List Reply) (r : Reply) (fam : Bool) :
    firstFamilySrc (rs ++ [r]) r.info.uid fam =
      (firstFamilySrc rs r.info.uid fam).orElse
        (fun _ => if r.srcIsV4 = fam then some r.srcAddress else none) := by
  unfold firstFamilySrc
  rw [List.find?_append]
  cases hfind : rs.find? (fun x => x.info.uid == r.info.uid && x.srcIsV4 == fam) with
  | none =>
    by_cases hf : r.srcIsV4 = fam
    · simp [hfind, List.find?, hf]
    · have hb : (r.srcIsV4 == fam) = false := by simp [hf]
      simp [hfind, List.find?, hb, hf]
  | some a => simp [hfind]

theorem firstFamilySrc_none_of_nil {rs : List Reply} {uid : String}
    (h : repliesFor rs uid = []) (fam : Bool) :
    firstFamilySrc rs uid fam = none := by
  unfold firstFamilySrc
  have h0 : ∀ x ∈ rs, ¬(x.info.uid == uid) = true := by
    rw [repliesFor, List.filter_eq_nil_iff] at h
    exact h
  have h2 : rs.find? (fun x => x.info.uid == uid && x.srcIsV4 == fam) = none := by
    rw [List.find?_eq_none]
    intro x hx hpx
    exact h0 x hx (Bool.and_elim_left hpx)
  rw [h2]
  rfl

theorem firstFamilySrc_mem {rs : List Reply} {uid : String} {fam : Bool}
    {a : String} (h : firstFamilySrc rs uid fam = some a) :
    ∃ r ∈ rs, r.srcAddress = a := by
  unfold firstFamilySrc at h
  cases hf : rs.find? (fun x => x.info.uid == uid && x.srcIsV4 == fam) with
  | none => rw [hf] at h; exact absurd h (by simp)
  | some x =>
    rw [hf] at h
    refine ⟨x, List.mem_of_find?_eq_some hf, ?_⟩
    simpa using h

theorem firstFamilySrc_ne_empty {rs : List Reply} {uid : String} {fam : Bool}
    {a : String} (hp : ∀ r ∈ rs, WellFormedReply r)
    (h : firstFamilySrc rs uid fam = some a) : a ≠ "" := by
  obtain ⟨r, hr, hra⟩ := firstFamilySrc_mem h
  exact hra ▸ (hp r hr).2.2

/-- The receive handler computes `traceSpec`: by induction over the reply
sequence, using the single-step characterization `applyReply_find_self`. -/
theorem traceSpec_correct (rs : List Reply) :
    (∀ r ∈ rs, WellFormedReply r) →
    ∀ uid, rmFind (runReplies [] rs) uid = traceSpec rs uid := by
  induction rs using List.reverseRecOn with
  | nil =>
    intro _ uid
    simp [runReplies, rmFind, traceSpec, repliesFor]
  | append_singleton rs r ih =>
    intro hp uid
    have hp' : ∀ x ∈ rs, WellFormedReply x :=
      fun x hx => hp x (List.mem_append_left _ hx)
    have hr : WellFormedReply r :=
      hp r (List.mem_append_right _ (List.mem_singleton_self r))
    have hrun : runReplies [] (rs ++ [r]) = applyReply (runReplies [] rs) r := by
      unfold runReplies
      rw [List.foldl_append]
      rfl
    by_cases huid : r.info.uid = uid
    · subst huid
      rw [hrun, applyReply_find_self, ih hp' r.info.uid]
      have hself : repliesFor [r] r.info.uid = [r] := by
        simp [repliesFor, List.filter]
      cases hA : repliesFor rs r.info.uid with
      | nil =>
        have hffs4 := firstFamilySrc_none_of_nil hA true
        have hffs6 := firstFamilySrc_none_of_nil hA false
        rw [traceSpec, hA]
        rw [traceSpec, repliesFor_append, hA, hself, List.nil_append,
          firstFamilySrc_append_self, firstFamilySrc_append_self, hffs4, hffs6]
        cases hsrc : r.srcIsV4 with
        | true =>
          simp only [stepEntry, addrUpdate, hsrc, if_pos rfl, hr.1,
            Option.orElse, setV4, List.getLastD]
          exact congrArg some (by
            refine Prod.ext ?_ rfl
            simp [hr.2.1])
        | false =>
          simp only [stepEntry, addrUpdate, hsrc, hr.2.1,
            Option.orElse, setV6, List.getLastD]
          exact congrArg some (by
            refine Prod.ext ?_ rfl
            simp [hr.1])
      | cons first rest =>
        rw [traceSpec, hA]
        rw [traceSpec, repliesFor_append, hA, hself,
          firstFamilySrc_append_self, firstFamilySrc_append_self]
        have hlast : ((rest ++ [r]).getLastD first) = r := by
          rw [List.getLastD_concat]
        rw [List.cons_append]
        dsimp only
        rw [hlast]
        cases hsrc : r.srcIsV4 with
        | true =>
          cases hv4 : firstFamilySrc rs r.info.uid true with
          | none =>
            cases hv6 : firstFamilySrc rs r.info.uid false <;>
              simp [stepEntry, addrUpdate, hsrc, hv4, hv6, setV4, setV6,
                Option.orElse]
          | some a4 =>
            have hne4 := firstFamilySrc_ne_empty hp' hv4
            cases hv6 : firstFamilySrc rs r.info.uid false <;>
              simp [stepEntry, addrUpdate, hsrc, hv4, hv6, hne4, setV4, setV6,
                Option.orElse]
        | false =>
          cases hv6 : firstFamilySrc rs r.info.uid false with
          | none =>
            cases hv4 : firstFamilySrc rs r.info.uid true <;>
              simp [stepEntry, addrUpdate, hsrc, hv4, hv6, setV4, setV6,
                Option.orElse]
          | some a6 =>
            have hne6 := firstFamilySrc_ne_empty hp' hv6
            cases hv4 : firstFamilySrc rs r.info.uid true <;>
              simp [stepEntry, addrUpdate, hsrc, hv4, hv6, hne6, setV4, setV6,
                Option.orElse]
    · have hne : uid ≠ r.info.uid := fun h => huid h.symm
      rw [hrun, applyReply_find_ne _ _ _ hne, ih hp' uid]
      have hnil : repliesFor [r] uid = [] := by
        have hb : (r.info.uid == uid) = false := by simp [huid]
        simp [repliesFor, List.filter, hb]
      rw [traceSpec, traceSpec, repliesFor_append, hnil, List.append_nil,
        firstFamilySrc_append_ne _ _ _ _ huid, firstFamilySrc_append_ne _ _ _ _ huid]

theorem runReplies_keysNodup (m : ResultMap) (rs : List Reply)
    (h : keysNodup m) : keysNodup (runReplies m rs) := by
  induction rs generalizing m with
  | nil => exact h
  | cons r rest ih =>
    have : runReplies m (r :: rest) = runReplies (applyReply m r) rest := rfl
    rw [this]
    exact ih _ (applyReply_keysNodup _ _ h)

/-- C2: effect of the receive handler on the result map.  Step level: keys
stay pairwise distinct (at most one entry per UID), entries of other UIDs
are untouched, and a reply for an already-known UID only sets `last_seen`
to the current clock and fills the family-matching address when it was
still empty (a non-empty address of either family is never overwritten).
Trace level: starting from an empty map, the entry for each UID carries the
source address of the first reply of each family (`traceSpec`). -/
theorem c2_receive_handler_updates :
    (∀ (m : ResultMap) (r : Reply), keysNodup m →
      keysNodup (applyReply m r) ∧
      (∀ k, k ≠ r.info.uid → rmFind (applyReply m r) k = rmFind m k) ∧
      (∀ e, rmFind m r.info.uid = some e →
        rmFind (applyReply m r) r.info.uid = some (addrUpdate (e.1, r.now) r)) ∧
      (∀ e, rmFind m r.info.uid = some e → e.1.v4address ≠ "" →
        (addrUpdate (e.1, r.now) r).1.v4address = e.1.v4address) ∧
      (∀ e, rmFind m r.info.uid = some e → e.1.v6address ≠ "" →
        (addrUpdate (e.1, r.now) r).1.v6address = e.1.v6address)) ∧
    (∀ rs : List Reply, (∀ r ∈ rs, WellFormedReply r) →
      ∀ uid, rmFind (runReplies [] rs) uid = traceSpec rs uid ∧
        keysNodup (runReplies [] rs)) := by
  constructor
  · intro m r hnd
    refine ⟨applyReply_keysNodup m r hnd, applyReply_find_ne m r, ?_, ?_, ?_⟩
    · intro e he
      rw [applyReply_find_self, he]
      rfl
    · intro e he h4
      unfold addrUpdate
      split
      · simp [h4]
      · split <;> rfl
    · intro e he h6
      unfold addrUpdate
      split
      · split <;> rfl
      · simp [h6]
  · intro rs hp uid
    exact ⟨traceSpec_correct rs hp uid,
      runReplies_keysNodup [] rs (by simp [keysNodup])⟩

/-- Concrete instantiation of `c2_receive_handler_updates`: a v6 reply for
UID `u` followed by a v4 reply for the same UID yields a single entry whose
v6 address comes from the first reply, whose v4 address comes from the
second, whose content comes from the first, and whose `last_seen` is the
second reply's clock. -/
theorem c2_receive_handler_updates_witness :
    rmFind (runReplies []
        [⟨⟨"u", "", "", "c1"⟩, false, "fe80::1", 1⟩,
         ⟨⟨"u", "", "", "c2"⟩, true, "10.0.0.1", 2⟩]) "u" =
      some (⟨"u", "10.0.0.1", "fe80::1", "c1"⟩, 2) :=
  ((c2_receive_handler_updates.2
      [⟨⟨"u", "", "", "c1"⟩, false, "fe80::1", 1⟩,
       ⟨⟨"u", "", "", "c2"⟩, true, "10.0.0.1", 2⟩]
      (by decide) "u").1).trans (by decide)

/-! ## The resolver front end (`resolver_impl`)

State relevant to `resolve_oneshot`, `resolve_continuous`, `results` and
`cancel`: the `cancelled_` flag, whether the continuous background thread
`background_io_` exists, `forget_after_`, and the current attempt's result
map (`current_resolve`; `none` models the null shared pointer).  Exceptions
are modelled by an `Except` verdict returned next to the (unchanged)
state. -/

structure ResolverState where
  cancelled : Bool
  backgroundThread : Bool
  forgetAfter : ℚ
  currentResolve : Option ResultMap
deriving DecidableEq

/-- The pruning/snapshot loop of `resolver_impl::results`
(src/resolver_impl.cpp, lines 127-134), iterating over the map with the
running output size `outCount`:
```
for (auto it = res.begin(); it != res.end();) {
    if (it->second.second < expired_before)
        it = res.erase(it);
    else {
        if (output.size() < max_results) output.push_back(it->second.first);
        it++;
    }
}
```
Returns the output vector and the map left behind. -/
def resultsPass (expiredBefore : ℚ) (maxResults : Nat) :
    ResultMap → Nat → List StreamInfo × ResultMap
  | [], _ => ([], [])
  | (k, e) :: rest, outCount =>
    if e.2 < expiredBefore then resultsPass expiredBefore maxResults rest outCount
    else
      let tail := resultsPass expiredBefore maxResults rest
        (if outCount < maxResults then outCount + 1 else outCount)
      ((if outCount < maxResults then [e.1] else []) ++ tail.1, (k, e) :: tail.2)

/-- Embeds `resolver_impl::results(max_results)` (src/resolver_impl.cpp, lines
120-136): throws `std::logic_error("No ongoing continuous_resolve")` when
there is no current attempt, otherwise prunes entries older than
`lsl_clock() - forget_after_` and snapshots at most `max_results` infos. -/
def resolver_results (r : ResolverState) (maxResults : Nat) (now : ℚ) :
    Except String (List StreamInfo) × ResolverState :=
  match r.currentResolve with
  | none => (Except.error "No ongoing continuous_resolve", r)
  | some m =>
    let pr := resultsPass (now - r.forgetAfter) maxResults m 0
    (Except.ok pr.1, { r with currentResolve := some pr.2 })

/-- Embeds `resolver_impl::resolve_oneshot` (src/resolver_impl.cpp, lines 75-102),
reduced to its guard and state transition: it throws when the continuous
background thread exists, then validates the query, then installs a fresh
attempt (`current_resolve = create_attempt(query)`, empty result map) —
and never creates a background thread itself. -/
def resolve_oneshot (r : ResolverState) (queryValid : Bool) :
    Except String Unit × ResolverState :=
  if r.backgroundThread then
    (Except.error "Resolver is already running in continuous mode", r)
  else if queryValid = false then
    (Except.error "Invalid query", r)
  else
    (Except.ok (), { r with currentResolve := some [] })

/-- Embeds `resolver_impl::resolve_continuous` (src/resolver_impl.cpp, lines
104-118), reduced to its guard and state transition: the same
`background_io_` guard and query check, then a fresh attempt,
`forget_after_` assignment and the spawned background thread. -/
def resolve_continuous (r : ResolverState) (queryValid : Bool)
    (forgetAfter : ℚ) : Except String Unit × ResolverState :=
  if r.backgroundThread then
    (Except.error "Resolver is already running in continuous mode", r)
  else if queryValid = false then
    (Except.error "Invalid query", r)
  else
    (Except.ok (), { r with forgetAfter := forgetAfter,
                            currentResolve := some [],
                            backgroundThread := true })

/-- The filter keeping the entries `results()` considers fresh. -/
def freshFilter (expiredBefore : ℚ) (m : ResultMap) : ResultMap :=
  m.filter fun p => decide (expiredBefore ≤ p.2.2)

theorem resultsPass_eq (expiredBefore : ℚ) (maxResults : Nat) (m : ResultMap) :
    ∀ outCount, resultsPass expiredBefore maxResults m outCount =
      (((freshFilter expiredBefore m).map fun p => p.2.1).take
          (maxResults - outCount),
        freshFilter expiredBefore m) := by
  induction m with
  | nil => intro c; simp [resultsPass, freshFilter]
  | cons p rest ih =>
    intro c
    obtain ⟨k, e⟩ := p
    by_cases hexp : e.2 < expiredBefore
    · have hkeep : decide (expiredBefore ≤ e.2) = false := by
        simp [not_le.mpr hexp]
      simp only [resultsPass, if_pos hexp, ih c, freshFilter, List.filter_cons,
        hkeep]
      simp
    · have hkeep : decide (expiredBefore ≤ e.2) = true := by
        simp [not_lt.mp hexp]
      by_cases hc : c < maxResults
      · have harith : maxResults - c = (maxResults - (c + 1)) + 1 := by omega
        simp only [resultsPass, if_neg hexp, if_pos hc, ih (c + 1), freshFilter,
          List.filter_cons, hkeep, List.map_cons, harith, List.take_succ_cons,
          List.singleton_append]
        simp
      · have harith : maxResults - c = 0 := by omega
        simp only [resultsPass, if_neg hexp, if_neg hc, ih c, freshFilter,
          List.filter_cons, hkeep, List.map_cons, harith, List.take_zero,
          List.nil_append]
        simp

/-- C3: with an ongoing attempt, `results()` returns (at most `max_results`
of) exactly the infos whose `last_seen` is at least `now - forget_after`,
and in the same pass erases every entry older than that from the result
map: the map left behind is the fresh-filtered map, so any returned info
stems from a fresh entry and any stale entry is gone. -/
theorem c3_results_pruning (r : ResolverState) (m : ResultMap)
    (maxResults : Nat) (now : ℚ) (h : r.currentResolve = some m) :
    (resolver_results r maxResults now).1 =
      Except.ok (((freshFilter (now - r.forgetAfter) m).map
        fun p => p.2.1).take maxResults) ∧
    (resolver_results r maxResults now).2.currentResolve =
      some (freshFilter (now - r.forgetAfter) m) ∧
    (∀ l, (resolver_results r maxResults now).1 = Except.ok l →
      l.length ≤ maxResults ∧
      ∀ i ∈ l, ∃ ke ∈ m, now - r.forgetAfter ≤ ke.2.2 ∧ ke.2.1 = i) ∧
    (∀ m2, (resolver_results r maxResults now).2.currentResolve = some m2 →
      ∀ ke ∈ m, ke.2.2 < now - r.forgetAfter → ke ∉ m2) := by
  have hres : resolver_results r maxResults now =
      (Except.ok (((freshFilter (now - r.forgetAfter) m).map
          fun p => p.2.1).take maxResults),
        { r with currentResolve := some (freshFilter (now - r.forgetAfter) m) }) := by
    unfold resolver_results
    rw [h]
    simp only [resultsPass_eq, Nat.sub_zero]
  refine ⟨by rw [hres], by rw [hres], ?_, ?_⟩
  · intro l hl
    rw [hres] at hl
    simp only [Except.ok.injEq] at hl
    subst hl
    constructor
    · exact List.length_take_le _ _
    · intro i hi
      have hi2 := List.mem_of_mem_take hi
      obtain ⟨p, hp, hpi⟩ := List.mem_map.mp hi2
      have hp2 := List.mem_filter.mp hp
      exact ⟨p, hp2.1, of_decide_eq_true hp2.2, hpi⟩
  · intro m2 hm2
    rw [hres] at hm2
    simp only [Option.some.injEq] at hm2
    subst hm2
    intro ke hke hstale hmem
    have := (List.mem_filter.mp hmem).2
    have := of_decide_eq_true this
    exact absurd hstale (not_lt.mpr this)

/-- Concrete instantiation of `c3_results_pruning`: with `forget_after = 2`
at clock 10, the entry last seen at 3 is pruned and only the entry last
seen at 10 is returned. -/
theorem c3_results_pruning_witness :
    (resolver_results
        ⟨false, true, 2, some [("a", (⟨"a", "", "", "x"⟩, 10)),
                               ("b", (⟨"b", "", "", "y"⟩, 3))]⟩ 5 10).1 =
      Except.ok [⟨"a", "", "", "x"⟩] :=
  ((c3_results_pruning
      ⟨false, true, 2, some [("a", (⟨"a", "", "", "x"⟩, 10)),
                             ("b", (⟨"b", "", "", "y"⟩, 3))]⟩
      [("a", (⟨"a", "", "", "x"⟩, 10)), ("b", (⟨"b", "", "", "y"⟩, 3))]
      5 10 rfl).1).trans (congrArg Except.ok
        (by norm_num [freshFilter, List.filter_cons]))

/-- C10: calling `results()` with no current resolve attempt yields the
`std::logic_error("No ongoing continuous_resolve")` and leaves the
resolver state unchanged. -/
theorem c10_results_without_attempt (r : ResolverState) (maxResults : Nat)
    (now : ℚ) (h : r.currentResolve = none) :
    resolver_results r maxResults now =
      (Except.error "No ongoing continuous_resolve", r) := by
  unfold resolver_results
  rw [h]

/-- Concrete instantiation of `c10_results_without_attempt` on a freshly
constructed resolver. -/
theorem c10_results_without_attempt_witness :
    resolver_results ⟨false, false, 5, none⟩ 0 0 =
      (Except.error "No ongoing continuous_resolve", ⟨false, false, 5, none⟩) :=
  c10_results_without_attempt ⟨false, false, 5, none⟩ 0 0 rfl

/-- C4 as stated is false: on a fresh resolver a successful one-shot
resolve leaves `background_io_` unset, so a subsequent `resolve_continuous`
on the same instance succeeds instead of failing with the "already
running" error. -/
theorem c4_oneshot_then_continuous_succeeds :
    (resolve_oneshot ⟨false, false, 0, none⟩ true).1 = Except.ok () ∧
    (resolve_oneshot ⟨false, false, 0, none⟩ true).2 =
      ⟨false, false, 0, some []⟩ ∧
    (resolve_continuous ⟨false, false, 0, some []⟩ true 5).1 = Except.ok () :=
  ⟨rfl, rfl, rfl⟩

/-- C4 (amended): while the continuous background thread exists, both
`resolve_oneshot` and `resolve_continuous` fail with the "already running
in continuous mode" error without touching the state (so without starting
an attempt); the guard is one-directional because `resolve_oneshot` never
creates the background thread, and with no background thread a valid
continuous resolve succeeds. -/
theorem c4_mode_guard (r : ResolverState) (q : Bool) (fa : ℚ)
    (h : r.backgroundThread = true) :
    resolve_oneshot r q =
      (Except.error "Resolver is already running in continuous mode", r) ∧
    resolve_continuous r q fa =
      (Except.error "Resolver is already running in continuous mode", r) ∧
    (∀ (r2 : ResolverState) (q2 : Bool),
      (resolve_oneshot r2 q2).2.backgroundThread = r2.backgroundThread) ∧
    (∀ (r2 : ResolverState) (fa2 : ℚ), r2.backgroundThread = false →
      (resolve_continuous r2 true fa2).1 = Except.ok ()) := by
  refine ⟨by simp [resolve_oneshot, h], by simp [resolve_continuous, h], ?_, ?_⟩
  · intro r2 q2
    unfold resolve_oneshot
    split
    · rfl
    · split <;> rfl
  · intro r2 fa2 h2
    simp [resolve_continuous, h2]

/-- Concrete instantiation of `c4_mode_guard`: on a resolver running in
continuous mode, a one-shot request fails with the "already running"
error and the state is unchanged. -/
theorem c4_mode_guard_witness :
    resolve_oneshot ⟨false, true, 1, some []⟩ true =
      (Except.error "Resolver is already running in continuous mode",
        ⟨false, true, 1, some []⟩) :=
  (c4_mode_guard ⟨false, true, 1, some []⟩ true 0 rfl).1

/-! ## Client session: streamfeed negotiation
(`client_session::handle_read_feedparams`, src/inireader.h)

External inputs of the negotiation (the configuration, the outlet's
`stream_info_impl`, the compile-time IEEE-754/subnormal tables of
`util/endian.hpp`, `lsl::can_convert_endian` and the runtime measurement
`measure_endian_performance()`) are fields of `ServerEnv`; the values left
by the `key: value` header parse loop, with their documented defaults, are
`ClientParams`. -/

inductive ChannelFormat
  | cft_float32
  | cft_double64
  | cft_string
  | cft_int32
  | cft_int16
  | cft_int8
  | cft_int64
  | cft_undefined
deriving DecidableEq

structure ServerEnv where
  /-- Value of `api_config::get_instance()->use_protocol_version()` -/
  useProtocolVersion : Int
  /-- Value of `info->uid()` -/
  uid : String
  /-- Value of `info->channel_format()` -/
  channelFormat : ChannelFormat
  /-- Value of `info->channel_bytes()` -/
  channelBytes : Int
  /-- Value of `LSL_BYTE_ORDER` -/
  lslByteOrder : Int
  /-- Value of `format_ieee754[cft_double64]` -/
  ieee754Double : Bool
  /-- Value of `format_ieee754[cft_float32]` -/
  ieee754Float : Bool
  /-- Table `format_subnormal[...]` -/
  subnormalFormat : ChannelFormat → Bool
  /-- Predicate `lsl::can_convert_endian(byte_order, value_size)` -/
  canConvertEndian : Int → Int → Bool
  /-- Value of `measure_endian_performance()` -/
  endianPerformance : ℚ

structure ClientParams where
  /-- Header `native-byte-order`, default 1234 (assume little endian) -/
  byteOrder : Int := 1234
  /-- Header `endian-performance`, default 0 -/
  endianPerformance : ℚ := 0
  /-- Header `has-ieee754-floats`, default true -/
  hasIeee754Floats : Bool := true
  /-- Header `supports-subnormals`, default true -/
  supportsSubnormals : Bool := true
  /-- Header `value-size`, default `info->channel_bytes()` -/
  valueSize : Int
  /-- Header `protocol-version`, default the requested protocol version -/
  protocolVersion : Int

/-- What the session writes back for a streamfeed request: a bare status
line (505/404, after which the handler returns), the `200 OK` response
header with its `Byte-Order`, `Suppress-Subnormals` and
`Data-Protocol-Version` fields, or — for protocol versions below 110 —
no status block at all (the legacy feed header follows directly). -/
inductive SessionReply
  | status (line : String)
  | ok200 (byteOrder : Int) (suppressSubnormals : Bool)
      (dataProtocolVersion : Int)
  | legacyFeed
deriving DecidableEq

structure NegotiationResult where
  reply : SessionReply
  /-- the session's `data_protocol_version_` field (initially 100) -/
  dataProtocolVersion : Int
  /-- the session's `reverse_byte_order_` field (initially false) -/
  reverseByteOrder : Bool
  /-- whether the handler goes on to serialize and send the feed header -/
  startsFeed : Bool
deriving DecidableEq

/-- The two decisions taken inside `if (data_protocol_version_ >= 110)`
(src/inireader.h, lines 560-579): whether to reverse the byte order
(byte orders differ, conversion possible, value size > 1, and we convert
faster than the client) and whether to suppress subnormals. -/
def swapDecision (env : ServerEnv) (p : ClientParams) (dpv : Int) : Bool × Bool :=
  if dpv ≥ 110 then
    (decide (env.lslByteOrder ≠ p.byteOrder) &&
       env.canConvertEndian p.byteOrder p.valueSize &&
       decide (p.valueSize > 1) &&
       decide (env.endianPerformance > p.endianPerformance),
     env.subnormalFormat env.channelFormat && !p.supportsSubnormals)
  else (false, false)

/-- Embeds `client_session::handle_read_feedparams` (src/inireader.h, lines
473-628), from the parsed request to the response parameters:
the 505 check (`request_protocol_version / 100 > use_protocol_version() / 100`),
the 404 check (non-empty UID differing from ours), then for requested
versions ≥ 110 the negotiation: `data_protocol_version_ =
min(use_protocol_version(), client_protocol_version)`, downgraded to 100 on
a value-size mismatch for non-string formats or missing IEEE-754 floats;
byte swapping and subnormal suppression are decided only when the
(possibly downgraded) version is still ≥ 110.  Requests below version 110
read the two legacy parameters and send no status block. -/
def handle_read_feedparams (env : ServerEnv) (requestProtocolVersion : Int)
    (requestUid : String) (p : ClientParams) : NegotiationResult :=
  if requestProtocolVersion / 100 > env.useProtocolVersion / 100 then
    { reply := SessionReply.status
        ("LSL/" ++ toString env.useProtocolVersion ++ " 505 Version not supported"),
      dataProtocolVersion := 100, reverseByteOrder := false, startsFeed := false }
  else if requestUid ≠ "" ∧ requestUid ≠ env.uid then
    { reply := SessionReply.status
        ("LSL/" ++ toString env.useProtocolVersion ++ " 404 Not found"),
      dataProtocolVersion := 100, reverseByteOrder := false, startsFeed := false }
  else if requestProtocolVersion ≥ 110 then
    let dpv0 := min env.useProtocolVersion p.protocolVersion
    let dpv1 :=
      if env.channelFormat ≠ ChannelFormat.cft_string ∧
          env.channelBytes ≠ p.valueSize then 100 else dpv0
    let dpv :=
      if ¬env.ieee754Double = true ∨
          (env.channelFormat = ChannelFormat.cft_float32 ∧
            ¬env.ieee754Float = true) ∨
          ¬p.hasIeee754Floats = true then 100 else dpv1
    let sw := swapDecision env p dpv
    { reply := SessionReply.ok200
        (if sw.1 then p.byteOrder else env.lslByteOrder) sw.2 dpv,
      dataProtocolVersion := dpv, reverseByteOrder := sw.1, startsFeed := true }
  else
    { reply := SessionReply.legacyFeed, dataProtocolVersion := 100,
      reverseByteOrder := false, startsFeed := true }

/-- The data protocol version the ≥ 110 negotiation settles on:
`min(use_protocol_version(), client_protocol_version)`, downgraded to the
legacy 100 when binary compatibility fails. -/
def negotiatedVersion (env : ServerEnv) (p : ClientParams) : Int :=
  if ¬env.ieee754Double = true ∨
      (env.channelFormat = ChannelFormat.cft_float32 ∧
        ¬env.ieee754Float = true) ∨
      ¬p.hasIeee754Floats = true then 100
  else if env.channelFormat ≠ ChannelFormat.cft_string ∧
      env.channelBytes ≠ p.valueSize then 100
  else min env.useProtocolVersion p.protocolVersion

theorem handle_read_feedparams_ok (env : ServerEnv) (rv : Int) (uid : String)
    (p : ClientParams) (h1 : rv / 100 ≤ env.useProtocolVersion / 100)
    (h2 : uid = "" ∨ uid = env.uid) (h3 : 110 ≤ rv) :
    handle_read_feedparams env rv uid p =
      { reply := SessionReply.ok200
          (if (swapDecision env p (negotiatedVersion env p)).1 then p.byteOrder
            else env.lslByteOrder)
          (swapDecision env p (negotiatedVersion env p)).2
          (negotiatedVersion env p),
        dataProtocolVersion := negotiatedVersion env p,
        reverseByteOrder := (swapDecision env p (negotiatedVersion env p)).1,
        startsFeed := true } := by
  have hng : ¬(rv / 100 > env.useProtocolVersion / 100) := not_lt.mpr h1
  have huid : ¬(uid ≠ "" ∧ uid ≠ env.uid) := by
    rcases h2 with h | h <;> simp [h]
  have hver : rv ≥ 110 := h3
  unfold handle_read_feedparams
  rw [if_neg hng, if_neg huid, if_pos hver]
  have hdpv :
      (if ¬env.ieee754Double = true ∨
          (env.channelFormat = ChannelFormat.cft_float32 ∧
            ¬env.ieee754Float = true) ∨
          ¬p.hasIeee754Floats = true then (100 : Int)
        else if env.channelFormat ≠ ChannelFormat.cft_string ∧
            env.channelBytes ≠ p.valueSize then 100
        else min env.useProtocolVersion p.protocolVersion) =
        negotiatedVersion env p := by
    unfold negotiatedVersion
    rfl
  by_cases hie : ¬env.ieee754Double = true ∨
      (env.channelFormat = ChannelFormat.cft_float32 ∧
        ¬env.ieee754Float = true) ∨
      ¬p.hasIeee754Floats = true
  · rw [← hdpv, if_pos hie]
    by_cases hmis : env.channelFormat ≠ ChannelFormat.cft_string ∧
        env.channelBytes ≠ p.valueSize
    · simp only [if_pos hmis, if_pos hie]
    · simp only [if_neg hmis, if_pos hie]
  · rw [← hdpv, if_neg hie]
    by_cases hmis : env.channelFormat ≠ ChannelFormat.cft_string ∧
        env.channelBytes ≠ p.valueSize
    · simp only [if_pos hmis, if_neg hie]
    · simp only [if_neg hmis, if_neg hie]

/-- C5 as stated is false on two counts.  First, with value-size mismatch
(channel bytes 4, client value size 8) on a float32 stream, the request
`LSL:streamfeed/110` with matching protocol versions (both 110) is
answered `200 OK`, but its `Data-Protocol-Version` is the downgraded 100,
not `min(server, client) = 110`.  Second, an explicit request version of
100 yields no status line at all (legacy feed) instead of a `200 OK`. -/
theorem c5_feedparams_counterexample :
    (handle_read_feedparams
        ⟨110, "abcd", ChannelFormat.cft_float32, 4, 1234, true, true,
          fun _ => false, fun _ _ => true, 0⟩ 110 ""
        ⟨1234, 0, true, true, 8, 110⟩).reply =
      SessionReply.ok200 1234 false 100 ∧
    min (110 : Int) 110 = 110 ∧ (100 : Int) ≠ 110 ∧
    (handle_read_feedparams
        ⟨110, "abcd", ChannelFormat.cft_float32, 4, 1234, true, true,
          fun _ => false, fun _ _ => true, 0⟩ 100 ""
        ⟨1234, 0, true, true, 8, 110⟩).reply =
      SessionReply.legacyFeed := by
  refine ⟨by decide, by decide, by decide, by decide⟩

/-- C5 (amended): for every streamfeed request with an explicit protocol
version: if the requested major version exceeds the server's, the reply is
the `505 Version not supported` status line and no feed is started;
otherwise, if the client UID is non-empty and differs from the server's,
the reply is the `404 Not found` status line and no feed is started;
otherwise, for requested versions ≥ 110, the session replies `200 OK`
carrying `data_protocol_version = min(server, client)` possibly downgraded
to 100 by the binary-compatibility checks (`negotiatedVersion`); for
requested versions below 110 no status line is sent and the legacy
protocol 100 is used. -/
theorem c5_feedparams_negotiation (env : ServerEnv) (rv : Int) (uid : String)
    (p : ClientParams) :
    (rv / 100 > env.useProtocolVersion / 100 →
      handle_read_feedparams env rv uid p =
        { reply := SessionReply.status
            ("LSL/" ++ toString env.useProtocolVersion ++
              " 505 Version not supported"),
          dataProtocolVersion := 100, reverseByteOrder := false,
          startsFeed := false }) ∧
    (rv / 100 ≤ env.useProtocolVersion / 100 → uid ≠ "" → uid ≠ env.uid →
      handle_read_feedparams env rv uid p =
        { reply := SessionReply.status
            ("LSL/" ++ toString env.useProtocolVersion ++ " 404 Not found"),
          dataProtocolVersion := 100, reverseByteOrder := false,
          startsFeed := false }) ∧
    (rv / 100 ≤ env.useProtocolVersion / 100 → (uid = "" ∨ uid = env.uid) →
      110 ≤ rv →
      (handle_read_feedparams env rv uid p).dataProtocolVersion =
        negotiatedVersion env p ∧
      (∃ bo sup, (handle_read_feedparams env rv uid p).reply =
        SessionReply.ok200 bo sup (negotiatedVersion env p)) ∧
      (handle_read_feedparams env rv uid p).startsFeed = true) ∧
    (rv / 100 ≤ env.useProtocolVersion / 100 → (uid = "" ∨ uid = env.uid) →
      rv < 110 →
      handle_read_feedparams env rv uid p =
        { reply := SessionReply.legacyFeed, dataProtocolVersion := 100,
          reverseByteOrder := false, startsFeed := true }) := by
  refine ⟨?_, ?_, ?_, ?_⟩
  · intro h
    unfold handle_read_feedparams
    rw [if_pos h]
  · intro h1 h2 h3
    unfold handle_read_feedparams
    rw [if_neg (not_lt.mpr h1), if_pos ⟨h2, h3⟩]
  · intro h1 h2 h3
    rw [handle_read_feedparams_ok env rv uid p h1 h2 h3]
    exact ⟨rfl, ⟨_, _, rfl⟩, rfl⟩
  · intro h1 h2 h3
    have huid : ¬(uid ≠ "" ∧ uid ≠ env.uid) := by
      rcases h2 with h | h <;> simp [h]
    unfold handle_read_feedparams
    rw [if_neg (not_lt.mpr h1), if_neg huid, if_neg (not_le.mpr h3)]

/-- Concrete instantiation of `c5_feedparams_negotiation`: a request for
protocol version 999 against a version-110 server is answered with the
505 status line and no feed. -/
theorem c5_feedparams_negotiation_witness :
    (handle_read_feedparams
        ⟨110, "abcd", ChannelFormat.cft_float32, 4, 1234, true, true,
          fun _ => false, fun _ _ => true, 0⟩ 999 "x"
        ⟨1234, 0, true, true, 4, 999⟩).reply =
      SessionReply.status "LSL/110 505 Version not supported" :=
  (congrArg NegotiationResult.reply
    ((c5_feedparams_negotiation
        ⟨110, "abcd", ChannelFormat.cft_float32, 4, 1234, true, true,
          fun _ => false, fun _ _ => true, 0⟩ 999 "x"
        ⟨1234, 0, true, true, 4, 999⟩).1 (by decide))).trans (by decide)

/-- C6: for every streamfeed session, `reverse_byte_order_` ends up set iff
the negotiated data protocol version is at least 110, the server's byte
order differs from the client's, endian conversion is supported for the
client's byte order and value size, the value size exceeds 1, and the
server's measured endian-conversion performance exceeds the client's. -/
theorem c6_reverse_byte_order_iff (env : ServerEnv) (rv : Int) (uid : String)
    (p : ClientParams) :
    (handle_read_feedparams env rv uid p).reverseByteOrder = true ↔
      (110 ≤ (handle_read_feedparams env rv uid p).dataProtocolVersion ∧
        env.lslByteOrder ≠ p.byteOrder ∧
        env.canConvertEndian p.byteOrder p.valueSize = true ∧
        1 < p.valueSize ∧
        env.endianPerformance > p.endianPerformance) := by
  unfold handle_read_feedparams
  by_cases hg1 : rv / 100 > env.useProtocolVersion / 100
  · rw [if_pos hg1]
    simp
  · rw [if_neg hg1]
    by_cases hg2 : uid ≠ "" ∧ uid ≠ env.uid
    · rw [if_pos hg2]
      simp
    · rw [if_neg hg2]
      by_cases hg3 : rv ≥ 110
      · rw [if_pos hg3]
        simp only
        generalize hdpv : (if ¬env.ieee754Double = true ∨
            (env.channelFormat = ChannelFormat.cft_float32 ∧
              ¬env.ieee754Float = true) ∨
            ¬p.hasIeee754Floats = true then (100 : Int)
          else if env.channelFormat ≠ ChannelFormat.cft_string ∧
              env.channelBytes ≠ p.valueSize then 100
          else min env.useProtocolVersion p.protocolVersion) = dpv
        unfold swapDecision
        by_cases hv : dpv ≥ 110
        · rw [if_pos hv]
          simp only [Bool.and_eq_true, decide_eq_true_eq]
          constructor
          · rintro ⟨⟨⟨hbo, hcc⟩, hvs⟩, hperf⟩
            exact ⟨hv, hbo, hcc, hvs, hperf⟩
          · rintro ⟨_, hbo, hcc, hvs, hperf⟩
            exact ⟨⟨⟨hbo, hcc⟩, hvs⟩, hperf⟩
        · rw [if_neg hv]
          simp [hv]
      · rw [if_neg hg3]
        simp

/-! ## Multicast sender construction (`resolve_attempt::resolve_attempt`) -/

inductive Proto
  | v4
  | v6
deriving DecidableEq

/-- The protocols of the sockets appended to `mcast_senders` by the
constructor (src/resolver_impl.h, lines 256-297): the optional IPv4
broadcast sender (`if (ipv4 && !broadcast_targets_.empty())`, kept when
the initial `send_query` succeeds), then the loop
```
for (int i = 0; i < 1; ++i) {
    if (i == 0 && !ipv4) continue;
    if (i == 1 && !ipv6) continue;
    auto proto = i == 0 ? ip::udp::v4() : ip::udp::v6();
    ... if (any_join_succeeded) mcast_senders.emplace_back(...);
}
```
`loopSenderOk i` abstracts "socket creation succeeded and some group join
succeeded in iteration `i`". -/
def mcastSenderProtos (ipv4 ipv6 hasBroadcastTargets broadcastOk : Bool)
    (loopSenderOk : Nat → Bool) : List Proto :=
  (if ipv4 && hasBroadcastTargets && broadcastOk then [Proto.v4] else []) ++
  ((List.range 1).filterMap fun i =>
    if i == 0 && !ipv4 then none
    else if i == 1 && !ipv6 then none
    else if loopSenderOk i then
      some (if i == 0 then Proto.v4 else Proto.v6)
    else none)

/-- C7: the loop bound `i < 1` restricts the multicast-sender construction
to the IPv4 iteration, so regardless of `allow_ipv6` the sender list holds
at most the IPv4 broadcast sender and the IPv4 multicast sender, and never
an IPv6 socket. -/
theorem c7_no_ipv6_multicast_sender (ipv4 ipv6 hasBroadcastTargets
    broadcastOk : Bool) (loopSenderOk : Nat → Bool) :
    mcastSenderProtos ipv4 ipv6 hasBroadcastTargets broadcastOk loopSenderOk =
      (if ipv4 && hasBroadcastTargets && broadcastOk then [Proto.v4] else []) ++
      (if ipv4 && loopSenderOk 0 then [Proto.v4] else []) ∧
    Proto.v6 ∉
      mcastSenderProtos ipv4 ipv6 hasBroadcastTargets broadcastOk loopSenderOk := by
  have hchar : mcastSenderProtos ipv4 ipv6 hasBroadcastTargets broadcastOk
      loopSenderOk =
      (if ipv4 && hasBroadcastTargets && broadcastOk then [Proto.v4] else []) ++
      (if ipv4 && loopSenderOk 0 then [Proto.v4] else []) := by
    unfold mcastSenderProtos
    have hr1 : List.range 1 = [0] := rfl
    rw [hr1]
    cases hipv4 : ipv4 with
    | false => cases h0 : loopSenderOk 0 <;> rfl
    | true =>
      cases h0 : loopSenderOk 0 <;>
        simp [h0, List.filterMap_cons, List.filterMap_nil]
  refine ⟨hchar, ?_⟩
  rw [hchar]
  intro hmem
  rw [List.mem_append] at hmem
  rcases hmem with h | h <;> split at h <;> simp_all

/-! ## The query datagram and the query-id check
(`resolve_attempt::resolve_attempt` and `handle_receive_outcome`) -/

/-- Whitespace as stripped by `trim`. -/
def isWsChar (c : Char) : Bool :=
  c = ' ' || c = '\t' || c = '\r' || c = '\n'

/-- Modelled from the spec: `trim` comes from `util/strfuns.hpp`, which is
not part of the source tree; per the spec the received prefix is compared
"trimmed", i.e. with leading and trailing whitespace stripped. -/
def trimChars (s : List Char) : List Char :=
  ((s.dropWhile isWsChar).reverse.dropWhile isWsChar).reverse

/-- The per-attempt query data precomputed by the `resolve_attempt`
constructor (src/resolver_impl.h, lines 241-247):
```
query_id_ = std::to_string(std::hash<std::string>()(query));
query_msg_ = "LSL:shortinfo\r\n";
query_msg_.append(query).append("\r\n");
query_msg_.append(std::to_string(recv_socket_.local_endpoint().port()));
query_msg_.append(" ").append(query_id_).append("\r\n");
```
Strings are byte sequences (`List Char`); `hash` abstracts the
implementation-defined `std::hash<std::string>`, `port` is the port the
receive socket was bound to. -/
structure AttemptQueryData where
  queryId : List Char
  queryMsg : List Char
deriving DecidableEq

def mk_attempt_query (hash : List Char → Nat) (query : List Char)
    (port : Nat) : AttemptQueryData :=
  let qid := (Nat.repr (hash query)).data
  let msg := "LSL:shortinfo\r\n".data
  let msg := msg ++ (query ++ "\r\n".data)
  let msg := msg ++ (Nat.repr port).data
  let msg := msg ++ " ".data ++ qid ++ "\r\n".data
  ⟨qid, msg⟩

/-- The query-id check of `handle_receive_outcome` (src/resolver_impl.h,
lines 367-373): the datagram is dropped when it contains no newline;
otherwise the prefix before the first newline, trimmed, must equal
`query_id_`. -/
def acceptsReply (qd : AttemptQueryData) (datagram : List Char) : Bool :=
  if datagram.contains '\n' then
    trimChars (datagram.takeWhile fun c => c ≠ '\n') == qd.queryId
  else false

/-- C8: the query datagram is exactly `"LSL:shortinfo\r\n" + query +
"\r\n" + port + " " + decimal hash + "\r\n"`, and the id the receive
handler compares against the (trimmed) first line of every response is
that same decimal hash. -/
theorem c8_query_message_format (hash : List Char → Nat) (query : List Char)
    (port : Nat) :
    (mk_attempt_query hash query port).queryMsg =
      "LSL:shortinfo\r\n".data ++ query ++ "\r\n".data ++
        (Nat.repr port).data ++ " ".data ++ (Nat.repr (hash query)).data ++
        "\r\n".data ∧
    (mk_attempt_query hash query port).queryId =
      (Nat.repr (hash query)).data ∧
    (∀ d, acceptsReply (mk_attempt_query hash query port) d = true ↔
      (d.contains '\n' = true ∧
        trimChars (d.takeWhile fun c => c ≠ '\n') =
          (Nat.repr (hash query)).data)) := by
  refine ⟨by simp [mk_attempt_query, List.append_assoc], rfl, ?_⟩
  intro d
  unfold acceptsReply
  by_cases hnl : d.contains '\n'
  · rw [if_pos hnl]
    simp only [beq_iff_eq, hnl, true_and, mk_attempt_query]
  · rw [if_neg hnl]
    simp only [Bool.false_eq_true, false_iff, not_and]
    intro hc
    exact absurd hc hnl

/-! ## Cancellation (`resolver_impl::cancel` and
`resolve_attempt::do_cancel`) -/

/-- The cancellation-relevant state of a resolve attempt: the `cancelled_`
flag, whether each of the three timers is armed, the open flags of the
`mcast_senders` sockets, and the receive socket's open flag. -/
structure AttemptIOState where
  cancelled : Bool
  cancelTimer : Bool
  unicastTimer : Bool
  multicastTimer : Bool
  mcastSendersOpen : List Bool
  recvSocketOpen : Bool
deriving DecidableEq

/-- Embeds `resolve_attempt::do_cancel` (src/resolver_impl.h, lines 411-423):
sets `cancelled_`, cancels the three timers, closes every sender socket
and closes the receive socket (if still open). -/
def do_cancel (a : AttemptIOState) : AttemptIOState :=
  { cancelled := true, cancelTimer := false, unicastTimer := false,
    multicastTimer := false,
    mcastSendersOpen := a.mcastSendersOpen.map fun _ => false,
    recvSocketOpen := false }

/-- The cancellation-relevant state of a resolver: its own `cancelled_`
flag and the current attempt (if any). -/
structure ResolverCancelState where
  cancelled : Bool
  attempt : Option AttemptIOState
deriving DecidableEq

/-- Embeds `resolver_impl::cancel` (src/resolver_impl.cpp, lines 147-150): sets
`cancelled_` and, when a current attempt exists, runs its (posted)
`do_cancel`. -/
def resolver_cancel (r : ResolverCancelState) : ResolverCancelState :=
  { cancelled := true, attempt := r.attempt.map do_cancel }

theorem do_cancel_idem (a : AttemptIOState) :
    do_cancel (do_cancel a) = do_cancel a := by
  simp [do_cancel, List.map_map]

theorem resolver_cancel_idem (r : ResolverCancelState) :
    resolver_cancel (resolver_cancel r) = resolver_cancel r := by
  unfold resolver_cancel
  cases r.attempt with
  | none => rfl
  | some a => simp [do_cancel_idem]

/-- C9: issuing `cancel()` `n ≥ 1` times has the same effect as issuing it
once: the resolver's cancelled flag is set, the attempt's timers are
cancelled and its sockets closed, and repeated invocations change nothing
further. -/
theorem c9_cancel_idempotent (r : ResolverCancelState) (n : Nat)
    (h : 1 ≤ n) :
    resolver_cancel^[n] r = resolver_cancel r ∧
    (resolver_cancel r).cancelled = true ∧
    (∀ a, (resolver_cancel r).attempt = some a →
      a.cancelled = true ∧ a.cancelTimer = false ∧ a.unicastTimer = false ∧
      a.multicastTimer = false ∧ a.recvSocketOpen = false ∧
      ∀ b ∈ a.mcastSendersOpen, b = false) := by
  refine ⟨?_, rfl, ?_⟩
  · induction n with
    | zero => omega
    | succ k ih =>
      rcases Nat.eq_or_lt_of_le h with h1 | h1
      · rw [← h1]
        exact Function.iterate_one resolver_cancel ▸ rfl
      · have hk : 1 ≤ k := by omega
        rw [Function.iterate_succ_apply' resolver_cancel k r, ih hk,
          resolver_cancel_idem]
  · intro a ha
    unfold resolver_cancel at ha
    cases hr : r.attempt with
    | none => rw [hr] at ha; exact absurd ha (by simp)
    | some a0 =>
      rw [hr] at ha
      have ha2 : do_cancel a0 = a := by simpa using ha
      subst ha2
      refine ⟨rfl, rfl, rfl, rfl, rfl, ?_⟩
      intro b hb
      simp only [do_cancel, List.mem_map] at hb
      obtain ⟨_, _, hbb⟩ := hb
      exact hbb.symm

/-- Concrete instantiation of `c9_cancel_idempotent`: three cancels on a
live resolver equal one cancel, which closes everything. -/
theorem c9_cancel_idempotent_witness :
    resolver_cancel^[3] ⟨false, some ⟨false, true, true, true, [true, true], true⟩⟩ =
      ⟨true, some ⟨true, false, false, false, [false, false], false⟩⟩ :=
  (c9_cancel_idempotent ⟨false, some ⟨false, true, true, true, [true, true], true⟩⟩
    3 (by decide)).1.trans (by decide)

end LSL
